import Mathlib

set_option maxRecDepth 4000

/-!
Shallow embedding of src/subliminal/core.py (Subliminal, PluginWorker,
matching_confidence, and the priority queue it instantiates), written to
check the design claims of spec.md against the code.

Conventions used throughout:
  - Python strings are Lean String, Python integers are Nat or Int, Python
    floats produced by the confidence arithmetic are modelled as Rat (the
    arithmetic involved is exact decimal/binary ratio arithmetic).
  - Python sets of strings are Finset String, Python lists are List.
  - Python exceptions become an explicit error type PyErr; a function that
    can raise returns Except PyErr.
  - External collaborators (provider plugins, guessit) are opaque at the
    interface boundary: their return values or raised exceptions appear as
    universally quantified parameters of the embedded functions.
-/

/-- Exceptions that core.py raises or propagates.  InvalidLanguageError,
PluginError, WrongTaskError, BadStateError, DownloadFailedError come from
the exceptions module (line 27); valueError and nameError model the Python
builtins ValueError and NameError. -/
inductive PyErr where
  | invalidLanguageError (l : String)
  | pluginError (p : String)
  | wrongTaskError
  | badStateError
  | downloadFailedError
  | valueError
  | nameError
  deriving DecidableEq, Repr

/-- Video of core.py at the granularity the ranking code reads it: the
videos module (outside the core) classifies a file as an Episode with
series, season, episode or a Movie with title, year; the keywords field
models utils.get_keywords(video.guess) used at line 323. -/
inductive Video where
  | episode (series : String) (season : Nat) (episodeNumber : Nat) (keywords : Finset String)
  | movie (title : String) (year : Nat) (keywords : Finset String)
  deriving DecidableEq

/-- Candidate subtitle as the ranking and download code reads it: plugin
name, language code, optional release name hint, provider confidence,
keywords, and the path of the video it belongs to. -/
structure Subtitle where
  plugin : String
  language : String
  release : Option String
  confidence : Rat
  keywords : Finset String
  video_path : String
  deriving DecidableEq

/-- Result of guessit.guess_file_info(subtitle.release) as read by
matching_confidence (lines 322-345): a type tag plus the optional fields
the function looks up, and the keyword set utils.get_keywords extracts. -/
structure Guess where
  gtype : String
  series : Option String
  season : Option Nat
  episodeNumber : Option Nat
  title : Option String
  year : Option Nat
  keywords : Finset String
  deriving DecidableEq

/-- ISO 639-1 language codes, the LANGUAGES constant of lines 50-60. -/
def LANGUAGES : Finset String :=
  (["aa", "ab", "ae", "af", "ak", "am", "an", "ar", "as", "av", "ay", "az", "ba", "be", "bg", "bh", "bi",
    "bm", "bn", "bo", "br", "bs", "ca", "ce", "ch", "co", "cr", "cs", "cu", "cv", "cy", "da", "de", "dv",
    "dz", "ee", "el", "en", "eo", "es", "et", "eu", "fa", "ff", "fi", "fj", "fo", "fr", "fy", "ga", "gd",
    "gl", "gn", "gu", "gv", "ha", "he", "hi", "ho", "hr", "ht", "hu", "hy", "hz", "ia", "id", "ie", "ig",
    "ii", "ik", "io", "is", "it", "iu", "ja", "jv", "ka", "kg", "ki", "kj", "kk", "kl", "km", "kn", "ko",
    "kr", "ks", "ku", "kv", "kw", "ky", "la", "lb", "lg", "li", "ln", "lo", "lt", "lu", "lv", "mg", "mh",
    "mi", "mk", "ml", "mn", "mo", "mr", "ms", "mt", "my", "na", "nb", "nd", "ne", "ng", "nl", "nn", "no",
    "nr", "nv", "ny", "oc", "oj", "om", "or", "os", "pa", "pi", "pl", "ps", "pt", "qu", "rm", "rn", "ro",
    "ru", "rw", "sa", "sc", "sd", "se", "sg", "si", "sk", "sl", "sm", "sn", "so", "sq", "sr", "ss", "st",
    "su", "sv", "sw", "ta", "te", "tg", "th", "ti", "tk", "tl", "tn", "to", "tr", "ts", "tt", "tw", "ty",
    "ug", "uk", "ur", "uz", "ve", "vi", "vo", "wa", "wo", "xh", "yi", "yo", "za", "zh", "zu"]).toFinset

/-- Plugin registry names, the PLUGINS constant of line 61. -/
def PLUGINS : List String := ["BierDopje", "OpenSubtitles", "SubsWiki", "Subtitulos", "TheSubDB"]

/-- Process states IDLE, RUNNING, PAUSED = range(3) of line 63. -/
def IDLE : Nat := 0

/-- RUNNING process state, line 63. -/
def RUNNING : Nat := 1

/-- PAUSED process state, line 63. -/
def PAUSED : Nat := 2

/-- Sort criteria LANGUAGE_INDEX, PLUGIN_INDEX, PLUGIN_CONFIDENCE,
MATCHING_CONFIDENCE = range(4) of line 64. -/
def LANGUAGE_INDEX : Nat := 0

/-- PLUGIN_INDEX sort criterion, line 64. -/
def PLUGIN_INDEX : Nat := 1

/-- PLUGIN_CONFIDENCE sort criterion, line 64. -/
def PLUGIN_CONFIDENCE : Nat := 2

/-- MATCHING_CONFIDENCE sort criterion, line 64. -/
def MATCHING_CONFIDENCE : Nat := 3

/-- Mutable instance attributes of the Subliminal object that the claims
touch (lines 72-86). -/
structure SubState where
  _languages : List String
  _plugins : List String
  sort_order : List Nat
  multi : Bool
  state : Nat
  deriving DecidableEq

/-- Default sort order installed by the constructor when sort_order is not
supplied (lines 74-75). -/
def defaultSortOrder : List Nat := [LANGUAGE_INDEX, PLUGIN_INDEX, PLUGIN_CONFIDENCE]

/-- Appending an entry only when absent, the body of lines 110-111 and
126-127 (if not x in acc, acc.append(x)). -/
def addUnique (acc : List String) (x : String) : List String :=
  if x ∈ acc then acc else acc ++ [x]

/-- Validation loop of the languages setter (lines 106-111): starting from
the freshly reset list, each input entry is checked against LANGUAGES and
appended if new; the first invalid entry raises InvalidLanguageError,
leaving the list at the entries accepted so far.  Returns the outcome and
the final stored list. -/
def setLanguagesLoop (acc : List String) : List String → Except PyErr Unit × List String
  | [] => (Except.ok (), acc)
  | l :: rest =>
    if l ∈ LANGUAGES then setLanguagesLoop (addUnique acc l) rest
    else (Except.error (PyErr.invalidLanguageError l), acc)

/-- The languages setter (lines 102-111).  The first statement of the
source body is self dot _languages = [], so the previous list is discarded
before any validation happens. -/
def setLanguages (st : SubState) (input : List String) : Except PyErr Unit × SubState :=
  let r := setLanguagesLoop [] input
  (r.1, { st with _languages := r.2 })

/-- Validation loop of the plugins setter (lines 122-127), same shape as
the languages loop with PLUGINS and PluginError. -/
def setPluginsLoop (acc : List String) : List String → Except PyErr Unit × List String
  | [] => (Except.ok (), acc)
  | p :: rest =>
    if p ∈ PLUGINS then setPluginsLoop (addUnique acc p) rest
    else (Except.error (PyErr.pluginError p), acc)

/-- The plugins setter (lines 118-127); like the languages setter it resets
the stored list before validating. -/
def setPlugins (st : SubState) (input : List String) : Except PyErr Unit × SubState :=
  let r := setPluginsLoop [] input
  (r.1, { st with _plugins := r.2 })

/-- First-occurrence deduplication: the list a sequence of appends guarded
by membership produces.  Used to state what the setters store. -/
def dedupFirst (input : List String) : List String :=
  input.foldl addUnique []

/-- Wanted-language defaulting of listSubtitles (lines 153-155): the set of
the configured languages, replaced by the full LANGUAGES set when empty. -/
def wantedDefault (configured : List String) : Finset String :=
  let w := configured.toFinset
  if w = ∅ then LANGUAGES else w

/-- Sort-order adjustment at the top of downloadSubtitles (lines 196-198).
In the source, order = self.sort_order binds the same list object, so
order.insert(0, LANGUAGE_INDEX) under multi mutates the instance attribute
itself; the function returns the updated instance state together with the
order actually used for ranking. -/
def downloadSortOrder (st : SubState) : SubState × List Nat :=
  if st.multi then
    let order := LANGUAGE_INDEX :: st.sort_order
    ({ st with sort_order := order }, order)
  else (st, st.sort_order)

/-- Entry of the task queue as built at lines 173, 203, 253, 261: a pair
(priority, task).  Queue.PriorityQueue stores these pairs in a heapq heap
and compares them as Python tuples: by priority first, and when priorities
are equal by comparing the task objects themselves.  The task classes of
this code base define no ordering, so Python 2 falls back to its default
object comparison; taskKey models that per-object comparison key (in
CPython, derived from the object id).  No arrival counter is part of the
entry. -/
structure QEntry where
  priority : Nat
  taskKey : Nat
  deriving DecidableEq, Repr

instance : Inhabited QEntry := ⟨⟨0, 0⟩⟩

/-- Lexicographic comparison of queue entries, the tuple comparison heapq
performs on (priority, task) pairs. -/
def entryLt (a b : QEntry) : Bool :=
  decide (a.priority < b.priority) ||
    (decide (a.priority = b.priority) && decide (a.taskKey < b.taskKey))

/-- CPython heapq _siftdown(heap, startpos, pos): newitem is held aside
while smaller parents move down, and is finally written at the resting
position.  Faithful to Lib/heapq.py, which Queue.PriorityQueue uses for
put and get. -/
def siftdownLoop (startpos : Nat) (newitem : QEntry) (heap : List QEntry) (pos : Nat) :
    List QEntry :=
  if h : startpos < pos then
    let parentpos := (pos - 1) / 2
    let parent := heap.getD parentpos default
    if entryLt newitem parent then
      siftdownLoop startpos newitem (heap.set pos parent) parentpos
    else heap.set pos newitem
  else heap.set pos newitem
termination_by pos
decreasing_by
  omega

/-- CPython heapq _siftup(heap, pos): the hole at pos is filled with the
smaller child all the way to a leaf, then the saved item is sifted back
down toward the root. -/
def siftupLoop (endpos startpos : Nat) (newitem : QEntry) (heap : List QEntry) (pos : Nat) :
    List QEntry :=
  if h : 2 * pos + 1 < endpos then
    if 2 * pos + 2 < endpos ∧
        ¬ entryLt (heap.getD (2 * pos + 1) default) (heap.getD (2 * pos + 2) default) then
      siftupLoop endpos startpos newitem (heap.set pos (heap.getD (2 * pos + 2) default)) (2 * pos + 2)
    else
      siftupLoop endpos startpos newitem (heap.set pos (heap.getD (2 * pos + 1) default)) (2 * pos + 1)
  else siftdownLoop startpos newitem (heap.set pos newitem) pos
termination_by endpos - pos
decreasing_by
  all_goals omega

/-- heapq.heappush: append the item and sift it toward the root. -/
def heappush (heap : List QEntry) (item : QEntry) : List QEntry :=
  siftdownLoop 0 item (heap ++ [item]) heap.length

/-- heapq.heappop: remove the last element; if the heap is still nonempty,
return the root, move the last element to the root and sift it up.  Returns
none on an empty heap (Queue.PriorityQueue blocks instead, which a pop on
an empty queue models as no entry available). -/
def heappop (heap : List QEntry) : Option (QEntry × List QEntry) :=
  match heap.getLast? with
  | none => none
  | some lastelt =>
    match heap.dropLast with
    | [] => some (lastelt, [])
    | r0 :: _ =>
      some (r0, siftupLoop heap.dropLast.length 0 lastelt (heap.dropLast.set 0 lastelt) 0)

/-- Provider description as the listing loop of lines 165-173 reads it:
the registry name, the availableLanguages() answer, and the
isValidVideo(video) answer for the video being processed. -/
structure PluginInfo where
  name : String
  availableLanguages : Finset String
  validVideo : Bool
  deriving DecidableEq

/-- Per-video listing loop of listSubtitles (lines 165-174).  The loop
variable wanted_languages is reassigned to its intersection with each
availableLanguages() before the emptiness test, so the intersection
accumulates across providers; an empty intersection or an invalid video
skips the provider (continue) without emitting a task; otherwise the entry
(5, ListTask(video, wanted_languages, plugin_name, config)) is enqueued. -/
def listTasksFor (video : Video) (wanted : Finset String) :
    List PluginInfo → List (Nat × Video × Finset String × String)
  | [] => []
  | p :: rest =>
    let w := wanted ∩ p.availableLanguages
    if w = ∅ then listTasksFor video w rest
    else if p.validVideo = false then listTasksFor video w rest
    else (5, video, w, p.name) :: listTasksFor video w rest

/-- Accumulated intersection of the wanted set with the available languages
of a prefix of the provider list. -/
def interPrefix (wanted : Finset String) (ps : List PluginInfo) : Finset String :=
  ps.foldl (fun w p => w ∩ p.availableLanguages) wanted

/-- Width of a Python format string :0Nb field for the value n with minimum
width 3: the binary digit count of n, never below the padding width.
Nat.size n is the number of binary digits of n (0 for 0). -/
def binWidth3 (n : Nat) : Nat := max 3 (Nat.size n)

/-- Integer value of the episode matching format, the string
series bit, season bit, episode bit, keyword count as 3-padded binary
(line 328) parsed back with int(..., 2) at line 346: the three boolean
bits followed by the binary digits of the keyword count. -/
def fmtEpisode (b1 b2 b3 kw : Nat) : Nat :=
  ((b1 * 2 + b2) * 2 + b3) * 2 ^ binWidth3 kw + kw

/-- Integer value of the movie matching format, title bit then year bit
then the keyword count as 3-padded binary (line 339). -/
def fmtMovie (b1 b2 kw : Nat) : Nat :=
  (b1 * 2 + b2) * 2 ^ binWidth3 kw + kw

/-- Numeric bit for a Bool. -/
def bit (b : Bool) : Nat := if b then 1 else 0

/-- Case-insensitive string equality, the x.lower() == y.lower() tests of
lines 331 and 342. -/
def lowerEq (a b : String) : Bool := a.toLower == b.toLower

/-- Presence plus case-insensitive match of an optional guessed string
field against the video field, the pattern of line 331 and line 342:
key in guess and guess value lowered equals video value lowered. -/
def optStrMatch (o : Option String) (s : String) : Bool :=
  match o with
  | none => false
  | some g => lowerEq g s

/-- Presence plus equality of an optional guessed number field, the
pattern of lines 333, 335, 344. -/
def optNatMatch (o : Option Nat) (n : Nat) : Bool :=
  match o with
  | none => false
  | some g => g == n

/-- Keyword set of a Video, utils.get_keywords(video.guess) of line 323. -/
def Video.keywords : Video → Finset String
  | .episode _ _ _ k => k
  | .movie _ _ k => k

/-- matching_confidence of lines 319-347.  The call
guessit.guess_file_info(subtitle.release) is an external collaborator; its
result is the guess parameter.  video_keywords models
utils.get_keywords(video.guess); subtitle_keywords is
utils.get_keywords(guess) united with subtitle.keywords (line 324).  The
achieved and best format strings are parsed as binary integers and the
confidence is their exact ratio. -/
def matching_confidence (video : Video) (sub : Subtitle) (guess : Guess) : Rat :=
  let video_keywords := video.keywords
  let subtitle_keywords := guess.keywords ∪ sub.keywords
  let kwCount := (video_keywords ∩ subtitle_keywords).card
  match video with
  | .episode vseries vseason vepisode vkw =>
    let typeOk := guess.gtype == "episode" || guess.gtype == "episodesubtitle"
    let seriesBit := bit (typeOk && optStrMatch guess.series vseries)
    let seasonBit := bit (typeOk && optNatMatch guess.season vseason)
    let episodeBit := bit (typeOk && optNatMatch guess.episodeNumber vepisode)
    (fmtEpisode seriesBit seasonBit episodeBit kwCount : Rat) /
      (fmtEpisode 1 1 1 vkw.card : Rat)
  | .movie vtitle vyear vkw =>
    let typeOk := guess.gtype == "movie" || guess.gtype == "moviesubtitle"
    let titleBit := bit (typeOk && optStrMatch guess.title vtitle)
    let yearBit := bit (typeOk && optNatMatch guess.year vyear)
    (fmtMovie titleBit yearBit kwCount : Rat) / (fmtMovie 1 1 vkw.card : Rat)

/-- Number of decimal digits of a natural number, at least one. -/
def decLen (n : Nat) : Nat :=
  if n < 10 then 1 else decLen (n / 10) + 1
termination_by n
decreasing_by
  omega

/-- Appending a zero-padded decimal field to the running key, the string
concatenation key += format(n) of lines 220-229 read as the integer
int(key) of line 230: the accumulated value is shifted by the width of the
formatted field (its minimum width, or more when n needs more digits). -/
def pyFmtAppend (acc minw n : Nat) : Nat :=
  acc * 10 ^ max minw (decLen n) + n

/-- Python int() applied to an exact rational: truncation toward zero. -/
def pyInt (q : Rat) : Int := Int.tdiv q.num (q.den : Int)

/-- Truncation toward zero returning a Nat; the confidence values formatted
at lines 224 and 229 are nonnegative, where this equals Python int(). -/
def pyIntNat (q : Rat) : Nat := (pyInt q).toNat

/-- Truthiness of the release field, the if subtitle.release test of line
227: false for a missing hint or an empty string. -/
def releaseTruthy (o : Option String) : Bool :=
  match o with
  | none => false
  | some s => !(s == "")

/-- Position of the first occurrence of x, the Python list.index lookup of
lines 220 and 222; none models the ValueError list.index raises when the
value is absent. -/
def listIndex (x : String) : List String → Option Nat
  | [] => none
  | y :: rest => if y = x then some 0 else (listIndex x rest).map (· + 1)

/-- Loop body of keySubtitles (lines 217-229) over the order list.
Each recognized criterion appends one fixed-minimum-width decimal field to
the key; list.index raises ValueError when the language or plugin of the
subtitle is not in the configured list; criteria outside range(4) append
nothing.  The Bool records whether any field was appended, because
int(key) of line 230 raises ValueError on the empty string. -/
def keyFold (langs plugs : List String) (video : Video) (sub : Subtitle) (guess : Guess)
    (acc : Nat) (has : Bool) : List Nat → Except PyErr (Nat × Bool)
  | [] => Except.ok (acc, has)
  | item :: rest =>
    if item = LANGUAGE_INDEX then
      match listIndex sub.language langs with
      | none => Except.error PyErr.valueError
      | some i =>
        keyFold langs plugs video sub guess
          (pyFmtAppend acc 3 (langs.length - i - 1)) true rest
    else if item = PLUGIN_INDEX then
      match listIndex sub.plugin plugs with
      | none => Except.error PyErr.valueError
      | some i =>
        keyFold langs plugs video sub guess
          (pyFmtAppend acc 2 (plugs.length - i - 1)) true rest
    else if item = PLUGIN_CONFIDENCE then
      keyFold langs plugs video sub guess
        (pyFmtAppend acc 4 (pyIntNat (sub.confidence * 1000))) true rest
    else if item = MATCHING_CONFIDENCE then
      let c : Rat := if releaseTruthy sub.release then matching_confidence video sub guess else 0
      keyFold langs plugs video sub guess
        (pyFmtAppend acc 4 (pyIntNat (c * 1000))) true rest
    else keyFold langs plugs video sub guess acc has rest

/-- keySubtitles of lines 216-230: builds the concatenated key over the
order list and parses it with int, which raises ValueError when nothing
was appended. -/
def keySubtitles (langs plugs : List String) (video : Video) (sub : Subtitle) (guess : Guess)
    (order : List Nat) : Except PyErr Nat :=
  match keyFold langs plugs video sub guess 0 false order with
  | Except.error e => Except.error e
  | Except.ok (n, true) => Except.ok n
  | Except.ok (_, false) => Except.error PyErr.valueError

/-- Outcome of one plugin.download(subtitle) call inside the DownloadTask
loop (lines 298-305): the downloaded subtitle on success, a
DownloadFailedError, or any other exception. -/
inductive DLOutcome where
  | ok (s : Subtitle)
  | failed
  | error
  deriving DecidableEq

/-- Task as the worker loop dispatches it (lines 288-314), together with
the behaviour of the provider calls it triggers.  For a ListTask the
outcome is the list plugin.list returns, or none when the provider raises;
for a DownloadTask the outcomes describe each candidate in order. -/
inductive WTask where
  | listT (video : Video) (languages : Finset String) (plugin : String)
      (outcome : Option (List Subtitle))
  | downloadT (outcomes : List DLOutcome)
  | stopT
  deriving DecidableEq

/-- Result of the candidate iteration of lines 298-305: first success,
exhaustion after DownloadFailedError warnings only, or an abort by a
non-download exception that the outer bare except catches. -/
inductive DlRun where
  | success (s : Subtitle)
  | exhausted
  | aborted
  deriving DecidableEq

/-- Candidate loop of the DownloadTask branch: success stores a singleton
result and breaks; DownloadFailedError logs a warning and continues; any
other exception propagates out of the for loop. -/
def dlLoop : List DLOutcome → DlRun
  | [] => DlRun.exhausted
  | DLOutcome.ok s :: _ => DlRun.success s
  | DLOutcome.failed :: rest => dlLoop rest
  | DLOutcome.error :: _ => DlRun.aborted

/-- Full DownloadTask execution (lines 297-314): the published result list
and whether logger.error ran.  On exhaustion the source logs the error of
line 307 (or, when the candidate sequence was empty, the access to the
loop variable subtitle raises NameError, which the bare except of line 308
catches and logs); on an abort the bare except logs; in every case the
finally block publishes the result, empty unless a download succeeded. -/
def runDownloadTask (outs : List DLOutcome) : List Subtitle × Bool :=
  match dlLoop outs with
  | DlRun.success s => ([s], false)
  | DlRun.exhausted => ([], true)
  | DlRun.aborted => ([], true)

/-- Items a single task execution appends to the two result channels
(lines 292-315).  A ListTask publishes exactly one item to the list result
queue: the pair list on success, the initial empty result when the
provider raised.  A DownloadTask publishes exactly one item to the
download result queue.  A StopTask publishes nothing. -/
def runTask : WTask → List (List (Video × List Subtitle)) × List (List Subtitle)
  | WTask.listT v _ _ (some subs) => ([[(v, subs)]], [])
  | WTask.listT _ _ _ none => ([[]], [])
  | WTask.downloadT outs => ([], [(runDownloadTask outs).1])
  | WTask.stopT => ([], [])

/-- Worker loop of PluginWorker.run (lines 285-316): tasks are executed in
pop order and the loop terminates at the first StopTask; the two channel
traces collect every published item. -/
def workerRun : List WTask → List (List (Video × List Subtitle)) × List (List Subtitle)
  | [] => ([], [])
  | WTask.stopT :: _ => ([], [])
  | t :: rest =>
    let r := runTask t
    let w := workerRun rest
    (r.1 ++ w.1, r.2 ++ w.2)

/-- Item published to the list result channel by one task, if any. -/
def taskListResult : WTask → Option (List (Video × List Subtitle))
  | WTask.listT v _ _ (some subs) => some [(v, subs)]
  | WTask.listT _ _ _ none => some []
  | _ => none

/-- Item published to the download result channel by one task, if any. -/
def taskDownloadResult : WTask → Option (List Subtitle)
  | WTask.downloadT outs => some (runDownloadTask outs).1
  | _ => none

/-- Stop entries pauseWorkers enqueues (lines 260-261): one StopTask per
worker at priority 0.  stopWorkers (lines 252-253) enqueues the same
signals at priority 10. -/
def pauseStopSignals (workersCount : Nat) : List (Nat × WTask) :=
  List.replicate workersCount (0, WTask.stopT)

/-- Tail of pauseWorkers (lines 264-266) after the workers were joined:
self.state = PAUSED always executes; when the task queue is empty the
next statement evaluates the name STOPPED, which is defined nowhere in the
module, so a NameError is raised and the state keeps the value PAUSED.
Returns the state after the call together with the exception, if any. -/
def pauseWorkersFinish (queueAtCheck : List (Nat × WTask)) : Nat × Option PyErr :=
  if queueAtCheck.isEmpty then (PAUSED, some PyErr.nameError) else (PAUSED, none)

/-- Names bound in the module namespace by the task import of line 26:
from tasks import DownloadTask, ListTask, StopTask.  The bare name Task is
not among them and is bound nowhere else in the module. -/
def importedTaskNames : List String := ["DownloadTask", "ListTask", "StopTask"]

/-- addTask of lines 268-271.  The guard evaluates isinstance(task, Task)
first; resolving the name Task fails because it was never imported, so
every call raises NameError before the task kind is inspected or anything
is enqueued.  Were the name bound, a StopTask or non-Task argument would
raise WrongTaskError and any other task would be enqueued at priority 5. -/
def addTask (t : WTask) : Except PyErr (Nat × WTask) :=
  if "Task" ∈ importedTaskNames then
    if t = WTask.stopT then Except.error PyErr.wrongTaskError
    else Except.ok (5, t)
  else Except.error PyErr.nameError

/-- Sample video used by witnesses. -/
def sampleVideo : Video := Video.movie "inception" 2010 {"x264"}

/-- Sample subtitle used by witnesses. -/
def sampleSubtitle : Subtitle :=
  { plugin := "OpenSubtitles", language := "fr", release := some "Inception.2010.x264",
    confidence := 9 / 10, keywords := {"x264"}, video_path := "/videos/inception.avi" }

/-- Sample instance state used by witnesses. -/
def sampleState : SubState :=
  { _languages := ["en"], _plugins := PLUGINS, sort_order := defaultSortOrder,
    multi := true, state := IDLE }

/-- C4: the claim says pauseWorkers leaves the state Paused, or Idle when
the task queue is empty at the check, and never raises.  The code instead
evaluates the undefined name STOPPED on the empty-queue path, so that path
raises NameError with the state left at PAUSED; on a nonempty queue the
call returns normally with state PAUSED; the stop signals are one StopTask
per worker at priority 0. -/
theorem pauseWorkers_stopped_name_bug :
    pauseWorkersFinish [] = (PAUSED, some PyErr.nameError) ∧
    pauseWorkersFinish [(5, WTask.downloadT [])] = (PAUSED, none) ∧
    pauseStopSignals 2 = [(0, WTask.stopT), (0, WTask.stopT)] :=
  ⟨rfl, rfl, rfl⟩

/-- C5: the claim says addTask raises WrongTaskKindError exactly on a
StopTask or unrecognized kind and otherwise enqueues at priority 5.  The
guard of line 269 evaluates isinstance(task, Task) first, and the name
Task is bound nowhere in the module, so every call raises NameError before
any task is examined or enqueued. -/
theorem addTask_always_raises_nameError (t : WTask) :
    addTask t = Except.error PyErr.nameError := by
  simp [addTask, importedTaskNames]

/-- Iterating the multi-mode sort-order mutation prepends one
LANGUAGE_INDEX per call. -/
theorem downloadSortOrder_iterate :
    ∀ (n : Nat) (st : SubState), st.multi = true →
      ((fun s => (downloadSortOrder s).1)^[n] st).sort_order
        = List.replicate n LANGUAGE_INDEX ++ st.sort_order := by
  intro n
  induction n with
  | zero => intro st _; simp
  | succ n ih =>
    intro st h
    rw [Function.iterate_succ_apply]
    rw [ih _ (by simp [downloadSortOrder, h])]
    simp [downloadSortOrder, h, List.replicate_succ']

/-- C6: with multi set, downloadSubtitles inserts LANGUAGE_INDEX at the
head of the instance sort_order list in place; the mutation persists on
the instance (the stored list is changed by every multi-mode call), and n
successive multi-mode calls leave n prepended copies. -/
theorem downloadSortOrder_multi_mutates (st : SubState) (h : st.multi = true) :
    (downloadSortOrder st).1.sort_order = LANGUAGE_INDEX :: st.sort_order ∧
    (downloadSortOrder st).2 = LANGUAGE_INDEX :: st.sort_order ∧
    (downloadSortOrder st).1.sort_order ≠ st.sort_order ∧
    (∀ n, ((fun s => (downloadSortOrder s).1)^[n] st).sort_order
        = List.replicate n LANGUAGE_INDEX ++ st.sort_order) := by
  refine ⟨by simp [downloadSortOrder, h], by simp [downloadSortOrder, h], ?_, ?_⟩
  · simp only [downloadSortOrder, h, if_true]
    intro hc
    have := congrArg List.length hc
    simp at this
  · intro n
    exact downloadSortOrder_iterate n st h

/-- Witness for C6 at a concrete state with multi set. -/
theorem downloadSortOrder_multi_mutates_witness :
    (downloadSortOrder sampleState).1.sort_order = LANGUAGE_INDEX :: sampleState.sort_order ∧
    ((fun s => (downloadSortOrder s).1)^[3] sampleState).sort_order
      = List.replicate 3 LANGUAGE_INDEX ++ sampleState.sort_order := by
  have h := downloadSortOrder_multi_mutates sampleState (by rfl)
  exact ⟨h.1, h.2.2.2 3⟩

/-- Valid inputs drive the languages validation loop to a normal return
with the guarded appends folded over the input. -/
theorem setLanguagesLoop_valid :
    ∀ (input acc : List String), (∀ l ∈ input, l ∈ LANGUAGES) →
      setLanguagesLoop acc input = (Except.ok (), input.foldl addUnique acc)
  | [], _, _ => rfl
  | l :: rest, acc, h => by
    have hl : l ∈ LANGUAGES := h l (List.mem_cons_self l rest)
    simp only [setLanguagesLoop, if_pos hl, List.foldl_cons]
    exact setLanguagesLoop_valid rest (addUnique acc l) fun x hx => h x (List.mem_cons_of_mem _ hx)

/-- The first invalid entry stops the languages validation loop with the
entries accepted so far. -/
theorem setLanguagesLoop_invalid :
    ∀ (pre acc : List String) (bad : String) (rest : List String),
      (∀ l ∈ pre, l ∈ LANGUAGES) → bad ∉ LANGUAGES →
      setLanguagesLoop acc (pre ++ bad :: rest)
        = (Except.error (PyErr.invalidLanguageError bad), pre.foldl addUnique acc)
  | [], acc, bad, rest, _, hbad => by
    simp only [List.nil_append, setLanguagesLoop, if_neg hbad, List.foldl_nil]
  | l :: pre, acc, bad, rest, h, hbad => by
    have hl : l ∈ LANGUAGES := h l (List.mem_cons_self l pre)
    simp only [List.cons_append, setLanguagesLoop, if_pos hl, List.foldl_cons]
    exact setLanguagesLoop_invalid pre (addUnique acc l) bad rest
      (fun x hx => h x (List.mem_cons_of_mem _ hx)) hbad

/-- Valid inputs drive the plugins validation loop to a normal return. -/
theorem setPluginsLoop_valid :
    ∀ (input acc : List String), (∀ p ∈ input, p ∈ PLUGINS) →
      setPluginsLoop acc input = (Except.ok (), input.foldl addUnique acc)
  | [], _, _ => rfl
  | p :: rest, acc, h => by
    have hp : p ∈ PLUGINS := h p (List.mem_cons_self p rest)
    simp only [setPluginsLoop, if_pos hp, List.foldl_cons]
    exact setPluginsLoop_valid rest (addUnique acc p) fun x hx => h x (List.mem_cons_of_mem _ hx)

/-- The first invalid entry stops the plugins validation loop with the
entries accepted so far. -/
theorem setPluginsLoop_invalid :
    ∀ (pre acc : List String) (bad : String) (rest : List String),
      (∀ p ∈ pre, p ∈ PLUGINS) → bad ∉ PLUGINS →
      setPluginsLoop acc (pre ++ bad :: rest)
        = (Except.error (PyErr.pluginError bad), pre.foldl addUnique acc)
  | [], acc, bad, rest, _, hbad => by
    simp only [List.nil_append, setPluginsLoop, if_neg hbad, List.foldl_nil]
  | p :: pre, acc, bad, rest, h, hbad => by
    have hp : p ∈ PLUGINS := h p (List.mem_cons_self p pre)
    simp only [List.cons_append, setPluginsLoop, if_pos hp, List.foldl_cons]
    exact setPluginsLoop_invalid pre (addUnique acc p) bad rest
      (fun x hx => h x (List.mem_cons_of_mem _ hx)) hbad

/-- C8 counterexample: with ["en"] stored, setting the languages to
["fr", "xx"] raises InvalidLanguageError("xx") but the stored list is now
["fr"], not the previous ["en"]; the claim that the previously stored
valid list is left unchanged fails. -/
theorem languages_setter_clobbers_counterexample :
    (setLanguages sampleState ["fr", "xx"]).1
        = Except.error (PyErr.invalidLanguageError "xx") ∧
    (setLanguages sampleState ["fr", "xx"]).2._languages = ["fr"] ∧
    sampleState._languages = ["en"] ∧ (["fr"] : List String) ≠ ["en"] := by
  have h1 : "fr" ∈ LANGUAGES := by rw [LANGUAGES, List.mem_toFinset]; simp
  have h2 : "xx" ∉ LANGUAGES := by rw [LANGUAGES, List.mem_toFinset]; simp
  have hloop := setLanguagesLoop_invalid ["fr"] [] "xx" []
    (by intro l hl; simp at hl; subst hl; exact h1) h2
  simp only [List.cons_append, List.nil_append] at hloop
  refine ⟨?_, ?_, rfl, by simp⟩
  · simp [setLanguages, hloop]
  · simp [setLanguages, hloop, addUnique]

/-- C8 amended: both setters deduplicate keeping first-insertion order on
fully valid input; on an input whose first invalid entry is bad, they
raise the corresponding validation error and leave the stored list equal
to the deduplicated valid prefix before bad, discarding the previously
stored list rather than keeping it. -/
theorem setters_dedup_and_reset (st : SubState) (input : List String) :
    ((∀ l ∈ input, l ∈ LANGUAGES) →
       setLanguages st input = (Except.ok (), { st with _languages := dedupFirst input })) ∧
    (∀ pre bad rest, input = pre ++ bad :: rest →
       (∀ l ∈ pre, l ∈ LANGUAGES) → bad ∉ LANGUAGES →
       setLanguages st input
         = (Except.error (PyErr.invalidLanguageError bad), { st with _languages := dedupFirst pre })) ∧
    ((∀ p ∈ input, p ∈ PLUGINS) →
       setPlugins st input = (Except.ok (), { st with _plugins := dedupFirst input })) ∧
    (∀ pre bad rest, input = pre ++ bad :: rest →
       (∀ p ∈ pre, p ∈ PLUGINS) → bad ∉ PLUGINS →
       setPlugins st input
         = (Except.error (PyErr.pluginError bad), { st with _plugins := dedupFirst pre })) := by
  refine ⟨?_, ?_, ?_, ?_⟩
  · intro h
    simp [setLanguages, setLanguagesLoop_valid input [] h, dedupFirst]
  · intro pre bad rest heq h hbad
    subst heq
    simp [setLanguages, setLanguagesLoop_invalid pre [] bad rest h hbad, dedupFirst]
  · intro h
    simp [setPlugins, setPluginsLoop_valid input [] h, dedupFirst]
  · intro pre bad rest heq h hbad
    subst heq
    simp [setPlugins, setPluginsLoop_invalid pre [] bad rest h hbad, dedupFirst]

/-- Witness for C8 at a concrete overlapping valid input. -/
theorem setters_dedup_and_reset_witness :
    setLanguages sampleState ["en", "en", "fr"]
      = (Except.ok (), { sampleState with _languages := dedupFirst ["en", "en", "fr"] }) := by
  refine (setters_dedup_and_reset sampleState ["en", "en", "fr"]).1 ?_
  intro l hl
  rw [LANGUAGES, List.mem_toFinset]
  fin_cases hl <;> simp

/-- The candidate loop reaches the first successful candidate after any
number of DownloadFailedError candidates. -/
theorem dlLoop_replicate_failed (k : Nat) (s : Subtitle) (rest : List DLOutcome) :
    dlLoop (List.replicate k DLOutcome.failed ++ DLOutcome.ok s :: rest) = DlRun.success s := by
  induction k with
  | zero => rfl
  | succ k ih => simpa [List.replicate_succ, dlLoop] using ih

/-- The candidate loop exhausts a sequence whose entries all fail with
DownloadFailedError, including the empty sequence. -/
theorem dlLoop_all_failed (outs : List DLOutcome) (h : ∀ o ∈ outs, o = DLOutcome.failed) :
    dlLoop outs = DlRun.exhausted := by
  induction outs with
  | nil => rfl
  | cons o rest ih =>
    have ho : o = DLOutcome.failed := h o (List.mem_cons_self o rest)
    subst ho
    exact ih fun x hx => h x (List.mem_cons_of_mem _ hx)

/-- C2: the worker tries download candidates strictly in sequence order;
when the first k candidates raise DownloadFailedError and the next one
succeeds with subtitle s, the published result is exactly [s] (later
candidates are not consulted and no error is logged); when every candidate
raises DownloadFailedError, or the sequence is empty, the published result
is empty and an error is logged; in both cases the task returns a result
instead of propagating an exception. -/
theorem download_ordered_fallback :
    (∀ (k : Nat) (s : Subtitle) (rest : List DLOutcome),
       runDownloadTask (List.replicate k DLOutcome.failed ++ DLOutcome.ok s :: rest)
         = ([s], false)) ∧
    (∀ outs : List DLOutcome, (∀ o ∈ outs, o = DLOutcome.failed) →
       runDownloadTask outs = ([], true)) := by
  constructor
  · intro k s rest
    simp [runDownloadTask, dlLoop_replicate_failed]
  · intro outs h
    simp [runDownloadTask, dlLoop_all_failed outs h]

/-- Witness for C2: one failing candidate before a success, and an
all-failing pair. -/
theorem download_ordered_fallback_witness :
    runDownloadTask (List.replicate 1 DLOutcome.failed ++ DLOutcome.ok sampleSubtitle :: [])
        = ([sampleSubtitle], false) ∧
    runDownloadTask [DLOutcome.failed, DLOutcome.failed] = ([], true) :=
  ⟨download_ordered_fallback.1 1 sampleSubtitle [],
   download_ordered_fallback.2 [DLOutcome.failed, DLOutcome.failed] (by decide)⟩

/-- Task kind test: listing task. -/
def isListTask : WTask → Bool
  | WTask.listT _ _ _ _ => true
  | _ => false

/-- Task kind test: download task. -/
def isDownloadTask : WTask → Bool
  | WTask.downloadT _ => true
  | _ => false

/-- The worker loop publishes, in order, exactly the per-task results on
each channel, as long as no StopTask terminates it early. -/
theorem workerRun_eq_filterMap (ts : List WTask) (h : WTask.stopT ∉ ts) :
    workerRun ts = (ts.filterMap taskListResult, ts.filterMap taskDownloadResult) := by
  induction ts with
  | nil => rfl
  | cons t rest ih =>
    have ht : t ≠ WTask.stopT := fun hx => h (hx ▸ List.mem_cons_self t rest)
    have hrest : WTask.stopT ∉ rest := fun hx => h (List.mem_cons_of_mem _ hx)
    cases t with
    | stopT => exact absurd rfl ht
    | listT v ls p o =>
      cases o <;>
        simp [workerRun, runTask, taskListResult, taskDownloadResult, ih hrest]
    | downloadT outs =>
      simp [workerRun, runTask, taskListResult, taskDownloadResult, ih hrest]

/-- Length of each published channel trace equals the number of tasks of
the matching kind. -/
theorem filterMap_results_length (ts : List WTask) :
    (ts.filterMap taskListResult).length = ts.countP isListTask ∧
    (ts.filterMap taskDownloadResult).length = ts.countP isDownloadTask := by
  induction ts with
  | nil => simp
  | cons t rest ih =>
    cases t with
    | listT v ls p o =>
      cases o <;>
        simp [taskListResult, taskDownloadResult, isListTask, isDownloadTask,
          List.countP_cons, ih.1, ih.2]
    | downloadT outs =>
      simp [taskListResult, taskDownloadResult, isListTask, isDownloadTask,
        List.countP_cons, ih.1, ih.2]
    | stopT =>
      simp [taskListResult, taskDownloadResult, isListTask, isDownloadTask,
        List.countP_cons, ih.1, ih.2]

/-- C1: a single ListTask execution publishes exactly one item to the
listing channel and none to the download channel, and a single
DownloadTask publishes exactly one item to the download channel and none
to the listing channel, whatever the provider outcome; consequently a
worker executing a stop-free task sequence publishes one matching item
per task, the traces are exactly the per-task results, and their lengths
equal the task counts of each kind, so N blocking reads of the matching
channel consume exactly the N task results. -/
theorem worker_one_result_per_task :
    (∀ v ls p o, (runTask (WTask.listT v ls p o)).1.length = 1 ∧
       (runTask (WTask.listT v ls p o)).2.length = 0) ∧
    (∀ outs, (runTask (WTask.downloadT outs)).1.length = 0 ∧
       (runTask (WTask.downloadT outs)).2.length = 1) ∧
    (∀ ts : List WTask, WTask.stopT ∉ ts →
       (workerRun ts).1 = ts.filterMap taskListResult ∧
       (workerRun ts).2 = ts.filterMap taskDownloadResult ∧
       (workerRun ts).1.length = ts.countP isListTask ∧
       (workerRun ts).2.length = ts.countP isDownloadTask) := by
  refine ⟨?_, ?_, ?_⟩
  · intro v ls p o
    cases o <;> simp [runTask]
  · intro outs
    simp [runTask]
  · intro ts h
    have hw := workerRun_eq_filterMap ts h
    have hl := filterMap_results_length ts
    rw [hw]
    exact ⟨rfl, rfl, hl.1, hl.2⟩

/-- Witness for C1 on a concrete stop-free task list containing one
failing listing task and one aborting download task. -/
theorem worker_one_result_per_task_witness :
    (workerRun [WTask.listT sampleVideo {"en"} "BierDopje" none,
        WTask.downloadT [DLOutcome.error]]).1
      = [WTask.listT sampleVideo {"en"} "BierDopje" none,
          WTask.downloadT [DLOutcome.error]].filterMap taskListResult ∧
    (workerRun [WTask.listT sampleVideo {"en"} "BierDopje" none,
        WTask.downloadT [DLOutcome.error]]).1.length
      = [WTask.listT sampleVideo {"en"} "BierDopje" none,
          WTask.downloadT [DLOutcome.error]].countP isListTask := by
  have h := worker_one_result_per_task.2.2
    [WTask.listT sampleVideo {"en"} "BierDopje" none, WTask.downloadT [DLOutcome.error]]
    (by decide)
  exact ⟨h.1, h.2.2.1⟩

/-- Folding one provider into the accumulated intersection. -/
theorem interPrefix_cons (w : Finset String) (p : PluginInfo) (ps : List PluginInfo) :
    interPrefix w (p :: ps) = interPrefix (w ∩ p.availableLanguages) ps := rfl

/-- The listing loop splits over an append, the second part starting from
the accumulated intersection of the first. -/
theorem listTasksFor_append (v : Video) :
    ∀ (ps : List PluginInfo) (w : Finset String) (qs : List PluginInfo),
      listTasksFor v w (ps ++ qs)
        = listTasksFor v w ps ++ listTasksFor v (interPrefix w ps) qs
  | [], w, qs => by simp [listTasksFor, interPrefix]
  | p :: ps, w, qs => by
    simp only [List.cons_append, listTasksFor, interPrefix_cons]
    by_cases h1 : w ∩ p.availableLanguages = ∅
    · simp [h1, listTasksFor_append v ps]
    · by_cases h2 : p.validVideo = false
      · simp [h1, h2, listTasksFor_append v ps]
      · simp [h1, h2, listTasksFor_append v ps]

/-- An empty accumulated wanted set emits no tasks for the remaining
providers (the intersection with every further provider stays empty). -/
theorem listTasksFor_empty_wanted (v : Video) :
    ∀ ps : List PluginInfo, listTasksFor v ∅ ps = []
  | [] => rfl
  | p :: ps => by
    simp [listTasksFor, Finset.empty_inter, listTasksFor_empty_wanted v ps]

/-- C10: in the listing loop, the language set of the task emitted for a
provider at any position is the original wanted set intersected with the
available languages of that provider and of every provider before it (the
task exists exactly when that accumulated intersection is nonempty and the
video is valid for the provider), and once the accumulated intersection of
a prefix is empty, no task is emitted for any remaining provider. -/
theorem listing_intersection_accumulates (v : Video) (wanted : Finset String) :
    (∀ pre p post,
       listTasksFor v wanted (pre ++ p :: post)
         = listTasksFor v wanted pre
           ++ (if interPrefix wanted pre ∩ p.availableLanguages = ∅ ∨ p.validVideo = false
               then []
               else [(5, v, interPrefix wanted pre ∩ p.availableLanguages, p.name)])
           ++ listTasksFor v (interPrefix wanted pre ∩ p.availableLanguages) post) ∧
    (∀ pre post, interPrefix wanted pre = ∅ →
       listTasksFor v wanted (pre ++ post) = listTasksFor v wanted pre) := by
  constructor
  · intro pre p post
    rw [listTasksFor_append]
    simp only [listTasksFor]
    by_cases h1 : interPrefix wanted pre ∩ p.availableLanguages = ∅
    · simp [h1]
    · by_cases h2 : p.validVideo = false
      · simp [h1, h2]
      · simp [h1, h2]
  · intro pre post h
    rw [listTasksFor_append, h, listTasksFor_empty_wanted]
    simp

/-- Witness for C10: a first provider with no available languages empties
the accumulated intersection, so the second provider gets no task. -/
theorem listing_intersection_accumulates_witness :
    listTasksFor sampleVideo {"en"}
        ([{ name := "BierDopje", availableLanguages := ∅, validVideo := true }]
          ++ [{ name := "OpenSubtitles", availableLanguages := {"en"}, validVideo := true }])
      = listTasksFor sampleVideo {"en"}
          [{ name := "BierDopje", availableLanguages := ∅, validVideo := true }] := by
  refine (listing_intersection_accumulates sampleVideo {"en"}).2
    [{ name := "BierDopje", availableLanguages := ∅, validVideo := true }]
    [{ name := "OpenSubtitles", availableLanguages := {"en"}, validVideo := true }] ?_
  simp [interPrefix]

/-- Pushing onto an empty heap stores the single entry. -/
theorem heappush_nil (e : QEntry) : heappush [] e = [e] := by
  simp [heappush, siftdownLoop]

/-- Pushing a second entry swaps it to the root exactly when it compares
lower than the first. -/
theorem heappush_pair (a b : QEntry) :
    heappush [a] b = if entryLt b a then [b, a] else [a, b] := by
  cases hba : entryLt b a <;>
    simp [heappush, siftdownLoop, hba]

/-- Popping a two-entry heap returns the root and leaves the other. -/
theorem heappop_pair (a b : QEntry) : heappop [a, b] = some (a, [b]) := by
  simp [heappop, siftupLoop, siftdownLoop]

/-- C3 counterexample: two entries of equal priority 5 are pushed in
arrival order first ⟨5, 2⟩ then ⟨5, 1⟩; because the tie is broken by the
tuple comparison on the task objects rather than by arrival, pop returns
the entry pushed second.  FIFO among equal priorities fails. -/
theorem priority_tie_not_fifo_counterexample :
    heappop (heappush (heappush [] ⟨5, 2⟩) ⟨5, 1⟩)
      = some ((⟨5, 1⟩ : QEntry), [(⟨5, 2⟩ : QEntry)]) := by
  have h : entryLt ⟨5, 1⟩ ⟨5, 2⟩ = true := by decide
  rw [heappush_nil, heappush_pair, if_pos h, heappop_pair]

/-- C3 amended: for a pair of pushed entries, pop returns the entry with
the lower priority value first; among entries with equal priority the
entry whose task comparison key is smaller is returned, regardless of
arrival order. -/
theorem priority_pair_pop (a b : QEntry) :
    heappop (heappush (heappush [] a) b)
        = some (if entryLt b a then (b, [a]) else (a, [b])) ∧
    (a.priority < b.priority →
       (heappop (heappush (heappush [] a) b)).map Prod.fst = some a) ∧
    (b.priority < a.priority →
       (heappop (heappush (heappush [] a) b)).map Prod.fst = some b) ∧
    (a.priority = b.priority →
       (heappop (heappush (heappush [] a) b)).map Prod.fst
         = some (if b.taskKey < a.taskKey then b else a)) := by
  have key : heappop (heappush (heappush [] a) b)
      = some (if entryLt b a then (b, [a]) else (a, [b])) := by
    rw [heappush_nil]
    cases hba : entryLt b a <;> simp [heappush_pair, hba, heappop_pair]
  refine ⟨key, ?_, ?_, ?_⟩
  · intro h
    have hba : entryLt b a = false := by
      simp only [entryLt, Bool.or_eq_false_iff, Bool.and_eq_false_iff,
        decide_eq_false_iff_not]
      omega
    rw [key, hba]
    simp
  · intro h
    have hba : entryLt b a = true := by
      simp only [entryLt, Bool.or_eq_true, decide_eq_true_eq]
      omega
    rw [key, hba]
    simp
  · intro h
    cases hk : decide (b.taskKey < a.taskKey) with
    | true =>
      have hba : entryLt b a = true := by
        simp only [entryLt, Bool.or_eq_true, Bool.and_eq_true, decide_eq_true_eq]
        simp only [decide_eq_true_eq] at hk
        omega
      rw [key, hba]
      simp only [decide_eq_true_eq] at hk
      simp [hk]
    | false =>
      have hba : entryLt b a = false := by
        simp only [entryLt, Bool.or_eq_false_iff, Bool.and_eq_false_iff,
          decide_eq_false_iff_not]
        simp only [decide_eq_false_iff_not] at hk
        omega
      rw [key, hba]
      simp only [decide_eq_false_iff_not] at hk
      simp [hk]

/-- Witness for C3 at distinct priorities. -/
theorem priority_pair_pop_witness :
    (heappop (heappush (heappush [] ⟨7, 0⟩) ⟨3, 0⟩)).map Prod.fst
      = some (⟨3, 0⟩ : QEntry) :=
  (priority_pair_pop ⟨7, 0⟩ ⟨3, 0⟩).2.2.1 (by decide)

/-- list.index on an absent value raises (returns none). -/
theorem listIndex_none (x : String) :
    ∀ l : List String, x ∉ l → listIndex x l = none
  | [], _ => rfl
  | y :: rest, h => by
    have h1 : ¬ y = x := fun hy => h (by simp [hy])
    have h2 : x ∉ rest := fun hx => h (by simp [hx])
    simp [listIndex, h1, listIndex_none x rest h2]

/-- The key construction fold raises ValueError whenever the order list
contains LANGUAGE_INDEX while the subtitle language is not configured, or
PLUGIN_INDEX while the subtitle plugin is not configured. -/
theorem keyFold_error (langs plugs : List String) (video : Video) (sub : Subtitle)
    (guess : Guess) :
    ∀ (order : List Nat) (acc : Nat) (has : Bool),
      ((LANGUAGE_INDEX ∈ order ∧ sub.language ∉ langs) ∨
        (PLUGIN_INDEX ∈ order ∧ sub.plugin ∉ plugs)) →
      keyFold langs plugs video sub guess acc has order = Except.error PyErr.valueError := by
  intro order
  induction order with
  | nil =>
    intro acc has H
    rcases H with ⟨h, _⟩ | ⟨h, _⟩ <;> simp at h
  | cons item rest ih =>
    intro acc has H
    by_cases h0 : item = LANGUAGE_INDEX
    · subst h0
      rcases hidx : listIndex sub.language langs with _ | i
      · simp [keyFold, hidx]
      · have hlang : sub.language ∈ langs := by
          by_contra hx
          rw [listIndex_none sub.language langs hx] at hidx
          exact Option.noConfusion hidx
        have H2 : (LANGUAGE_INDEX ∈ rest ∧ sub.language ∉ langs) ∨
            (PLUGIN_INDEX ∈ rest ∧ sub.plugin ∉ plugs) := by
          rcases H with ⟨_, hnot⟩ | ⟨hmem, hnot⟩
          · exact absurd hlang hnot
          · refine Or.inr ⟨?_, hnot⟩
            simpa [LANGUAGE_INDEX, PLUGIN_INDEX] using hmem
        simp only [keyFold, hidx, if_pos rfl]
        exact ih _ _ H2
    · by_cases h1 : item = PLUGIN_INDEX
      · subst h1
        rcases hidx : listIndex sub.plugin plugs with _ | i
        · simp [keyFold, h0, hidx]
        · have hplug : sub.plugin ∈ plugs := by
            by_contra hx
            rw [listIndex_none sub.plugin plugs hx] at hidx
            exact Option.noConfusion hidx
          have H2 : (LANGUAGE_INDEX ∈ rest ∧ sub.language ∉ langs) ∨
              (PLUGIN_INDEX ∈ rest ∧ sub.plugin ∉ plugs) := by
            rcases H with ⟨hmem, hnot⟩ | ⟨_, hnot⟩
            · refine Or.inl ⟨?_, hnot⟩
              rcases List.mem_cons.mp hmem with heq | hm
              · exact absurd heq.symm h0
              · exact hm
            · exact absurd hplug hnot
          simp only [keyFold, hidx, if_neg h0, if_pos rfl]
          exact ih _ _ H2
      · have H2 : (LANGUAGE_INDEX ∈ rest ∧ sub.language ∉ langs) ∨
            (PLUGIN_INDEX ∈ rest ∧ sub.plugin ∉ plugs) := by
          rcases H with ⟨hmem, hnot⟩ | ⟨hmem, hnot⟩
          · refine Or.inl ⟨?_, hnot⟩
            rcases List.mem_cons.mp hmem with heq | hm
            · exact absurd heq.symm h0
            · exact hm
          · refine Or.inr ⟨?_, hnot⟩
            rcases List.mem_cons.mp hmem with heq | hm
            · exact absurd heq.symm h1
            · exact hm
        by_cases h2 : item = PLUGIN_CONFIDENCE
        · subst h2
          simp only [keyFold, if_neg h0, if_neg h1, if_pos rfl]
          exact ih _ _ H2
        · by_cases h3 : item = MATCHING_CONFIDENCE
          · subst h3
            simp only [keyFold, if_neg h0, if_neg h1, if_neg h2, if_pos rfl]
            exact ih _ _ H2
          · simp only [keyFold, if_neg h0, if_neg h1, if_neg h2, if_neg h3]
            exact ih _ _ H2

/-- C9: keySubtitles raises ValueError (through list.index) whenever the
ranking order consults LANGUAGE_INDEX and the subtitle language is not in
the configured languages list, or consults PLUGIN_INDEX and the subtitle
plugin is not in the configured plugins list; in particular, with no
configured languages the listing still proceeds (the wanted set defaults
to the full LANGUAGES set while the configured list stays empty), and
then every candidate makes keySubtitles raise under the default sort
order, so downloadSubtitles cannot rank the returned candidates. -/
theorem keySubtitles_unconfigured_value_error :
    (∀ (langs plugs : List String) (video : Video) (sub : Subtitle) (guess : Guess)
       (order : List Nat), LANGUAGE_INDEX ∈ order → sub.language ∉ langs →
       keySubtitles langs plugs video sub guess order = Except.error PyErr.valueError) ∧
    (∀ (langs plugs : List String) (video : Video) (sub : Subtitle) (guess : Guess)
       (order : List Nat), PLUGIN_INDEX ∈ order → sub.plugin ∉ plugs →
       keySubtitles langs plugs video sub guess order = Except.error PyErr.valueError) ∧
    wantedDefault [] = LANGUAGES ∧
    (∀ (plugs : List String) (video : Video) (sub : Subtitle) (guess : Guess),
       keySubtitles [] plugs video sub guess defaultSortOrder
         = Except.error PyErr.valueError) := by
  have hkey : ∀ (langs plugs : List String) (video : Video) (sub : Subtitle) (guess : Guess)
      (order : List Nat),
      ((LANGUAGE_INDEX ∈ order ∧ sub.language ∉ langs) ∨
        (PLUGIN_INDEX ∈ order ∧ sub.plugin ∉ plugs)) →
      keySubtitles langs plugs video sub guess order = Except.error PyErr.valueError := by
    intro langs plugs video sub guess order H
    rw [keySubtitles, keyFold_error langs plugs video sub guess order 0 false H]
  refine ⟨?_, ?_, rfl, ?_⟩
  · intro langs plugs video sub guess order h1 h2
    exact hkey langs plugs video sub guess order (Or.inl ⟨h1, h2⟩)
  · intro langs plugs video sub guess order h1 h2
    exact hkey langs plugs video sub guess order (Or.inr ⟨h1, h2⟩)
  · intro plugs video sub guess
    refine hkey [] plugs video sub guess defaultSortOrder (Or.inl ⟨?_, ?_⟩)
    · simp [defaultSortOrder]
    · simp

/-- Witness for C9: language "fr" against configured languages ["en"]
under the default sort order. -/
theorem keySubtitles_unconfigured_value_error_witness :
    keySubtitles ["en"] PLUGINS sampleVideo sampleSubtitle
        { gtype := "movie", series := none, season := none, episodeNumber := none,
          title := some "Inception", year := some 2010, keywords := {"x264"} }
        defaultSortOrder
      = Except.error PyErr.valueError := by
  refine keySubtitles_unconfigured_value_error.1 ["en"] PLUGINS sampleVideo sampleSubtitle
    _ defaultSortOrder ?_ ?_
  · simp [defaultSortOrder]
  · simp [sampleSubtitle]

/-- A boolean bit is at most one. -/
theorem bit_le_one (b : Bool) : bit b ≤ 1 := by cases b <;> simp [bit]

/-- The padded binary width is monotone. -/
theorem binWidth3_mono {m n : Nat} (h : m ≤ n) : binWidth3 m ≤ binWidth3 n :=
  max_le_max le_rfl (Nat.size_le_size h)

/-- Every number fits below two to its padded binary width. -/
theorem lt_two_pow_binWidth3 (n : Nat) : n < 2 ^ binWidth3 n :=
  lt_of_lt_of_le (Nat.lt_size_self n)
    (Nat.pow_le_pow_right (by norm_num) (le_max_right 3 _))

/-- Core comparison of the achieved and best matching format values: a
smaller boolean block over a smaller keyword count never exceeds the full
block over the capping keyword count, even when the keyword fields render
with different binary widths. -/
theorem fmtCore_le (B Bmax m t : Nat) (hB : B ≤ Bmax) (h1 : 1 ≤ Bmax) (hm : m ≤ t) :
    B * 2 ^ binWidth3 m + m ≤ Bmax * 2 ^ binWidth3 t + t := by
  rcases lt_or_eq_of_le (binWidth3_mono hm) with hlt | heq
  · have hstep : B * 2 ^ binWidth3 m + m < Bmax * 2 ^ binWidth3 t := by
      calc B * 2 ^ binWidth3 m + m
          < B * 2 ^ binWidth3 m + 2 ^ binWidth3 m :=
            Nat.add_lt_add_left (lt_two_pow_binWidth3 m) _
        _ = (B + 1) * 2 ^ binWidth3 m := by ring
        _ ≤ (Bmax + 1) * 2 ^ binWidth3 m := Nat.mul_le_mul_right _ (by omega)
        _ ≤ (2 * Bmax) * 2 ^ binWidth3 m := Nat.mul_le_mul_right _ (by omega)
        _ = Bmax * 2 ^ (binWidth3 m + 1) := by rw [pow_succ]; ring
        _ ≤ Bmax * 2 ^ binWidth3 t :=
            Nat.mul_le_mul_left _ (Nat.pow_le_pow_right (by norm_num) (by omega))
    omega
  · rw [heq]
    exact Nat.add_le_add (Nat.mul_le_mul_right _ hB) hm

/-- The achieved episode format value never exceeds the best one. -/
theorem fmtEpisode_le (b1 b2 b3 m t : Nat) (h1 : b1 ≤ 1) (h2 : b2 ≤ 1) (h3 : b3 ≤ 1)
    (hm : m ≤ t) : fmtEpisode b1 b2 b3 m ≤ fmtEpisode 1 1 1 t := by
  unfold fmtEpisode
  norm_num
  exact fmtCore_le _ 7 m t (by omega) (by norm_num) hm

/-- The achieved movie format value never exceeds the best one. -/
theorem fmtMovie_le (b1 b2 m t : Nat) (h1 : b1 ≤ 1) (h2 : b2 ≤ 1) (hm : m ≤ t) :
    fmtMovie b1 b2 m ≤ fmtMovie 1 1 t := by
  unfold fmtMovie
  norm_num
  exact fmtCore_le _ 3 m t (by omega) (by norm_num) hm

/-- The best episode format value is positive. -/
theorem fmtEpisode_pos (t : Nat) : 0 < fmtEpisode 1 1 1 t := by
  unfold fmtEpisode
  positivity

/-- The best movie format value is positive. -/
theorem fmtMovie_pos (t : Nat) : 0 < fmtMovie 1 1 t := by
  unfold fmtMovie
  positivity

/-- The confidence lies in the unit interval for every video kind. -/
theorem matching_confidence_mem_unit (video : Video) (sub : Subtitle) (guess : Guess) :
    0 ≤ matching_confidence video sub guess ∧ matching_confidence video sub guess ≤ 1 := by
  cases video with
  | episode vs vse vep vkw =>
    simp only [matching_confidence, Video.keywords]
    constructor
    · positivity
    · rw [div_le_one (by exact_mod_cast fmtEpisode_pos vkw.card)]
      exact_mod_cast fmtEpisode_le _ _ _ _ _ (bit_le_one _) (bit_le_one _) (bit_le_one _)
        (Finset.card_le_card Finset.inter_subset_left)
  | movie vt vy vkw =>
    simp only [matching_confidence, Video.keywords]
    constructor
    · positivity
    · rw [div_le_one (by exact_mod_cast fmtMovie_pos vkw.card)]
      exact_mod_cast fmtMovie_le _ _ _ _ (bit_le_one _) (bit_le_one _)
        (Finset.card_le_card Finset.inter_subset_left)

/-- C7: matching_confidence always lies in [0, 1]; it is exactly 1 when
every metadata field agrees (series, season and episode for an Episode
guess of episode type; title and year for a Movie guess of movie type)
and the keyword overlap reaches the full keyword count of the video; and
in the ranking key a candidate with no release-name hint gets matching
confidence 0 (its MATCHING_CONFIDENCE field is the zero field). -/
theorem matching_confidence_claim :
    (∀ (video : Video) (sub : Subtitle) (guess : Guess),
       0 ≤ matching_confidence video sub guess ∧ matching_confidence video sub guess ≤ 1) ∧
    (∀ (vs : String) (vse vep : Nat) (vkw : Finset String) (sub : Subtitle) (guess : Guess)
       (gs : String),
       (guess.gtype = "episode" ∨ guess.gtype = "episodesubtitle") →
       guess.series = some gs → gs.toLower = vs.toLower →
       guess.season = some vse → guess.episodeNumber = some vep →
       (vkw ∩ (guess.keywords ∪ sub.keywords)).card = vkw.card →
       matching_confidence (Video.episode vs vse vep vkw) sub guess = 1) ∧
    (∀ (vt : String) (vy : Nat) (vkw : Finset String) (sub : Subtitle) (guess : Guess)
       (gti : String),
       (guess.gtype = "movie" ∨ guess.gtype = "moviesubtitle") →
       guess.title = some gti → gti.toLower = vt.toLower →
       guess.year = some vy →
       (vkw ∩ (guess.keywords ∪ sub.keywords)).card = vkw.card →
       matching_confidence (Video.movie vt vy vkw) sub guess = 1) ∧
    (∀ (langs plugs : List String) (video : Video) (sub : Subtitle) (guess : Guess),
       sub.release = none →
       keySubtitles langs plugs video sub guess [MATCHING_CONFIDENCE] = Except.ok 0) := by
  refine ⟨matching_confidence_mem_unit, ?_, ?_, ?_⟩
  · intro vs vse vep vkw sub guess gs htype hser hlow hsea hep hcard
    have ht : (guess.gtype == "episode" || guess.gtype == "episodesubtitle") = true := by
      rcases htype with h | h <;> simp [h]
    have hs : optStrMatch guess.series vs = true := by
      rw [hser]
      simp [optStrMatch, lowerEq, hlow]
    have h2 : optNatMatch guess.season vse = true := by
      rw [hsea]
      simp [optNatMatch]
    have h3 : optNatMatch guess.episodeNumber vep = true := by
      rw [hep]
      simp [optNatMatch]
    simp only [matching_confidence, Video.keywords, ht, hs, h2, h3, hcard,
      Bool.true_and, Bool.and_self, bit, if_true]
    rw [div_self]
    exact_mod_cast (fmtEpisode_pos vkw.card).ne'
  · intro vt vy vkw sub guess gti htype htit hlow hyear hcard
    have ht : (guess.gtype == "movie" || guess.gtype == "moviesubtitle") = true := by
      rcases htype with h | h <;> simp [h]
    have hs : optStrMatch guess.title vt = true := by
      rw [htit]
      simp [optStrMatch, lowerEq, hlow]
    have h2 : optNatMatch guess.year vy = true := by
      rw [hyear]
      simp [optNatMatch]
    simp only [matching_confidence, Video.keywords, ht, hs, h2, hcard,
      Bool.true_and, Bool.and_self, bit, if_true]
    rw [div_self]
    exact_mod_cast (fmtMovie_pos vkw.card).ne'
  · intro langs plugs video sub guess h
    have hz : pyIntNat (0 : Rat) = 0 := by
      norm_num [pyIntNat, pyInt, Int.tdiv]
    have hfmt : pyFmtAppend 0 4 0 = 0 := by
      norm_num [pyFmtAppend]
    simp [keySubtitles, keyFold, h, releaseTruthy, LANGUAGE_INDEX, PLUGIN_INDEX,
      PLUGIN_CONFIDENCE, MATCHING_CONFIDENCE, hz, hfmt]

/-- Sample guess used by the C7 witness. -/
def sampleEpisodeGuess : Guess :=
  { gtype := "episode", series := some "dexter", season := some 5, episodeNumber := some 12,
    title := none, year := none, keywords := {"x264"} }

/-- Witness for C7: a full agreement on series, season, episode and the
whole keyword set scores exactly one. -/
theorem matching_confidence_claim_witness :
    matching_confidence (Video.episode "dexter" 5 12 {"x264"}) sampleSubtitle
        sampleEpisodeGuess = 1 :=
  matching_confidence_claim.2.1 "dexter" 5 12 {"x264"} sampleSubtitle sampleEpisodeGuess
    "dexter" (Or.inl rfl) rfl rfl rfl rfl (by decide)
